import Mathlib

/-!
# Verification of the Sales-Forecast dashboard core logic

A shallow embedding of the first-party logic of `src/backup.py`:
filtering the raw sales table by the three selected dimensions,
computing the four summary statistics, building the extended forecast
date range and the merged forecast frame, and the two aggregation views
(top-N products, trailing-window store sales).

Dates are modelled as integers (days since an arbitrary epoch), sales,
margin and out-of-stock percentages as rationals.  Pandas boolean-mask
filtering is `List.filter`, `sort_values` is a stable insertion sort,
`groupby(...).sum()` is "sorted distinct keys, each paired with the sum
over its group", `.iloc[-1]` on a possibly-empty frame is `getLast?`
(where `none` models the `IndexError` raised on an empty frame).

The external forecasting capability (Prophet) is a black box for its
numerics: predictions are an arbitrary function `yhat : ℤ → ℚ`.  Its
date-range construction `make_future_dataframe` is deterministic and is
embedded faithfully: the model's stored history dates (the sorted
distinct `ds` values of the training frame) followed by `periods`
consecutive days after the last history date.
-/

namespace SalesForecast

/-- One row of the raw table: `{date, state, store_id, product_id, sales,
margin, out_of_stock_pct}` (`backup.py` expects exactly these columns). -/
structure SalesRecord where
  date : ℤ
  state : String
  store_id : String
  product_id : String
  sales : ℚ
  margin : ℚ
  out_of_stock_pct : ℚ
deriving DecidableEq, Repr

/-- Embeds `raw_df[(raw_df["state"] == state) & (raw_df["store_id"] == store) &
(raw_df["product_id"] == product)]` (backup.py lines 50-54): boolean-mask
filtering keeps exactly the matching rows, in order, with multiplicity. -/
def filtered_df (raw : List SalesRecord) (state store product : String) :
    List SalesRecord :=
  raw.filter (fun r =>
    r.state == state && r.store_id == store && r.product_id == product)

/-- Embeds `sorted(raw_df["state"].unique())` (line 44). -/
def availableStates (raw : List SalesRecord) : List String :=
  List.insertionSort (· ≤ ·) ((raw.map (·.state)).dedup)

/-- Embeds `sorted(raw_df[raw_df["state"] == state]["store_id"].unique())`
(lines 45-46). -/
def availableStores (raw : List SalesRecord) (state : String) : List String :=
  List.insertionSort (· ≤ ·)
    (((raw.filter (fun r => r.state == state)).map (·.store_id)).dedup)

/-- Embeds `sorted(raw_df[(state ==) & (store ==)]["product_id"].unique())`
(lines 47-48). -/
def availableProducts (raw : List SalesRecord) (state store : String) :
    List String :=
  List.insertionSort (· ≤ ·)
    (((raw.filter (fun r =>
        r.state == state && r.store_id == store)).map (·.product_id)).dedup)

/-- Date-ascending row order, the relation used by `sort_values("date")`. -/
def dateLe (a b : SalesRecord) : Prop := a.date ≤ b.date

instance : DecidableRel dateLe := fun a b => Int.decLe a.date b.date

/-- Embeds `filtered_df.sort_values("date")` (line 57): stable sort by date. -/
def sortByDate (l : List SalesRecord) : List SalesRecord :=
  List.insertionSort dateLe l

/-- Embeds `filtered_df.sort_values("date").iloc[-1]` (line 57).  `none` models
the `IndexError` that `.iloc[-1]` raises on an empty frame. -/
def latest (filtered : List SalesRecord) : Option SalesRecord :=
  (sortByDate filtered).getLast?

/-- Embeds `filtered_df["sales"].mean()` (line 58). -/
def avg_sales (filtered : List SalesRecord) : ℚ :=
  ((filtered.map (·.sales)).sum) / filtered.length

/-- Embeds `filtered_df["margin"].mean()` (line 59). -/
def avg_margin (filtered : List SalesRecord) : ℚ :=
  ((filtered.map (·.margin)).sum) / filtered.length

/-- Embeds `filtered_df["out_of_stock_pct"].mean()` (line 60). -/
def avg_outstock (filtered : List SalesRecord) : ℚ :=
  ((filtered.map (·.out_of_stock_pct)).sum) / filtered.length

/-- Embeds `filtered_df[["date", "sales"]]` renamed to `(ds, y)` (line 69):
column projection in row order. -/
def df_prophet (filtered : List SalesRecord) : List (ℤ × ℚ) :=
  filtered.map (fun r => (r.date, r.sales))

/-- Maximum of a list of dates; the list is nonempty wherever the code
takes a `.max()` (pandas returns `NaN` on empty, never consumed here). -/
def listMaxD (l : List ℤ) : ℤ := (l.maximum).unbot' 0

/-- Minimum of a list of dates. -/
def listMinD (l : List ℤ) : ℤ := (l.minimum).untop' 0

/-- The `ds` column of a `(ds, y)` frame. -/
def seriesDates (series : List (ℤ × ℚ)) : List ℤ := series.map Prod.fst

/-- Prophet's stored `history_dates`: the sorted distinct `ds` values of
the frame the model was fit on (line 71, `model.fit(df_prophet)`). -/
def history_dates (series : List (ℤ × ℚ)) : List ℤ :=
  List.insertionSort (· ≤ ·) ((seriesDates series).dedup)

/-- Prophet's `make_future_dataframe(periods)` at daily frequency with
`include_history=True` (line 72): the stored history dates followed by
the `periods` consecutive days strictly after the last history date. -/
def make_future_dataframe (hist : List ℤ) (periods : ℕ) : List ℤ :=
  hist ++ (List.range periods).map (fun i : ℕ => listMaxD hist + 1 + (i : ℤ))

/-- The `future` frame of line 72 for a given training series. -/
def futureOf (series : List (ℤ × ℚ)) : List ℤ :=
  make_future_dataframe (history_dates series) 30

/-- Embeds `forecast[["ds", "yhat"]]` (line 73): `model.predict(future)` returns
one `yhat` per row of `future`; the numeric model is the black-box
function `yhat`. -/
def forecastCol (yhat : ℤ → ℚ) (fut : List ℤ) : List (ℤ × ℚ) :=
  fut.map (fun d => (d, yhat d))

/-- Embeds `pd.merge(left, right, on="ds")` where `left` carries only the `ds`
column (line 74): inner join on the key, left order outer, right order
inner. -/
def mergeOn (left : List ℤ) (right : List (ℤ × ℚ)) : List (ℤ × ℚ) :=
  left.flatMap (fun d => (right.filter (fun p => p.1 == d)).map (fun p => (d, p.2)))

/-- Embeds `merged = pd.merge(future, forecast[["ds", "yhat"]], on="ds")`
(line 74). -/
def mergedOf (yhat : ℤ → ℚ) (series : List (ℤ × ℚ)) : List (ℤ × ℚ) :=
  mergeOn (futureOf series) (forecastCol yhat (futureOf series))

/-- The `ds` column of the merged frame. -/
def mergedDates (yhat : ℤ → ℚ) (series : List (ℤ × ℚ)) : List ℤ :=
  seriesDates (mergedOf yhat series)

/-- Embeds `cutoff = df_prophet["ds"].max()` (line 75). -/
def cutoff (series : List (ℤ × ℚ)) : ℤ := listMaxD (seriesDates series)

/-- The actual value the input series holds at a date, if any: the
actual-sales trace the chart draws alongside the forecast (line 80). -/
def actualAt (series : List (ℤ × ℚ)) (d : ℤ) : Option ℚ :=
  (series.find? (fun p => p.1 == d)).map Prod.snd

/-- Embeds `display_df = merged[merged['ds'] > cutoff]` (lines 115-116): the
future-only slice shown in the forecast table. -/
def display_df (yhat : ℤ → ℚ) (series : List (ℤ × ℚ)) : List (ℤ × ℚ) :=
  (mergedOf yhat series).filter (fun p => cutoff series < p.1)

/-- Total sales of one product across the whole raw table:
one group of `raw_df.groupby("product_id")["sales"].sum()` (line 96). -/
def productTotal (raw : List SalesRecord) (p : String) : ℚ :=
  ((raw.filter (fun r => r.product_id == p)).map (·.sales)).sum

/-- Embeds `raw_df.groupby("product_id")["sales"].sum()` (line 96): distinct
product ids in ascending key order, each with its group sum. -/
def productTotals (raw : List SalesRecord) : List (String × ℚ) :=
  (List.insertionSort (· ≤ ·) ((raw.map (·.product_id)).dedup)).map
    (fun p => (p, productTotal raw p))

/-- Descending-by-total order used by `nlargest` (ties keep the earlier
row, i.e. the sort is stable over the key-ascending groupby order). -/
def descBySnd (a b : String × ℚ) : Prop := b.2 ≤ a.2

instance : DecidableRel descBySnd := fun a b => Rat.instDecidableLe b.2 a.2

instance : IsTotal (String × ℚ) descBySnd :=
  ⟨fun a b => le_total b.2 a.2⟩

instance : IsTrans (String × ℚ) descBySnd :=
  ⟨fun _ _ _ h₁ h₂ => le_trans h₂ h₁⟩

/-- Embeds `top5_df = raw_df.groupby("product_id")["sales"].sum().nlargest(n)`
(line 96, `n = 5`): stable descending sort by total, take `n`. -/
def top5_df (raw : List SalesRecord) (n : ℕ) : List (String × ℚ) :=
  (List.insertionSort descBySnd (productTotals raw)).take n

/-- Embeds `raw_df[raw_df["date"] >= latest_date - pd.Timedelta(days=w)]`
(lines 104-105): the rows inside the trailing window. -/
def recentRows (raw : List SalesRecord) (windowDays : ℤ) : List SalesRecord :=
  raw.filter (fun r => listMaxD (raw.map (·.date)) - windowDays ≤ r.date)

/-- Embeds `store_agg = recent.groupby("store_id")["sales"].sum()` (line 105). -/
def store_agg (raw : List SalesRecord) (windowDays : ℤ) : List (String × ℚ) :=
  (List.insertionSort (· ≤ ·) (((recentRows raw windowDays).map (·.store_id)).dedup)).map
    (fun s =>
      (s, (((recentRows raw windowDays).filter (fun r => r.store_id == s)).map (·.sales)).sum))

/-- What each of the four outputs of one script run holds; `none` means
the output was never rendered because the script aborted earlier. -/
structure Outputs where
  metricsOut : Option (ℚ × ℚ × ℚ × ℚ)
  forecastOut : Option (List (ℤ × ℚ))
  top5Out : Option (List (String × ℚ))
  storeOut : Option (List (String × ℚ))

/-- One top-to-bottom run of the script for a selection.  The script is
straight-line: the metrics render first (lines 57-66); the Prophet fit
(line 71) comes next, and an uncaught exception there ends the run, so
nothing after it renders; otherwise the forecast chart, the two
aggregation charts and the table all render (lines 77-117).
`fitModel = none` models Prophet raising during `fit`/`predict`. -/
def runDashboard (raw : List SalesRecord) (state store product : String)
    (fitModel : Option (ℤ → ℚ)) : Outputs :=
  let filtered := filtered_df raw state store product
  match latest filtered with
  | none => ⟨none, none, none, none⟩
  | some lrow =>
      let m := some (lrow.sales, avg_margin filtered, avg_outstock filtered,
        avg_sales filtered)
      match fitModel with
      | none => ⟨m, none, none, none⟩
      | some yhat =>
          ⟨m, some (mergedOf yhat (df_prophet filtered)),
            some (top5_df raw 5), some (store_agg raw 7)⟩

/-! ## Concrete rows used by witnesses -/

/-- Row (2024-01-01, CA, S1, P1, sales 10); dates count days since 2023-12-31. -/
def rowA : SalesRecord := ⟨1, "CA", "S1", "P1", 10, 1, 0⟩

/-- Row (2024-01-02, CA, S1, P1, sales 20). -/
def rowB : SalesRecord := ⟨2, "CA", "S1", "P1", 20, 1, 0⟩

/-- Row (2024-01-03, CA, S1, P1, sales 30). -/
def rowC : SalesRecord := ⟨3, "CA", "S1", "P1", 30, 1, 0⟩

/-- A row of another store/product, used to exercise the filter. -/
def rowD : SalesRecord := ⟨2, "TX", "S2", "P2", 5, 1, 0⟩

/-- A row dated 2024-01-10 (day 10), for the trailing-window scenario. -/
def rowJan10 : SalesRecord := ⟨10, "CA", "S1", "P1", 4, 1, 0⟩

/-- A row dated 2024-01-03 (day 3), inside the 7-day window ending day 10. -/
def rowJan03 : SalesRecord := ⟨3, "CA", "S2", "P1", 6, 1, 0⟩

/-- A row dated 2024-01-02 (day 2), outside the 7-day window ending day 10. -/
def rowJan02 : SalesRecord := ⟨2, "CA", "S1", "P1", 7, 1, 0⟩

/-! ## C1: exact-match filtering -/

/-- C1: `filtered_df` returns exactly the rows whose three dimension
fields equal the selected values: every returned row satisfies all three
equalities, every satisfying row of the raw table keeps its exact
multiplicity (no duplication, no loss), and no other row appears. -/
theorem C1_filter_exact_match (raw : List SalesRecord)
    (state store product : String) :
    (∀ r ∈ filtered_df raw state store product,
      r.state = state ∧ r.store_id = store ∧ r.product_id = product) ∧
    (∀ r : SalesRecord, r.state = state → r.store_id = store →
      r.product_id = product →
      (filtered_df raw state store product).count r = raw.count r) ∧
    (∀ r : SalesRecord,
      ¬(r.state = state ∧ r.store_id = store ∧ r.product_id = product) →
      (filtered_df raw state store product).count r = 0) := by
  refine ⟨?_, ?_, ?_⟩
  · intro r hr
    simp only [filtered_df, List.mem_filter, Bool.and_eq_true, beq_iff_eq] at hr
    exact ⟨hr.2.1.1, hr.2.1.2, hr.2.2⟩
  · intro r h1 h2 h3
    refine List.count_filter ?_
    simp [h1, h2, h3]
  · intro r hnot
    rw [List.count_eq_zero]
    intro hr
    simp only [filtered_df, List.mem_filter, Bool.and_eq_true, beq_iff_eq] at hr
    exact hnot ⟨hr.2.1.1, hr.2.1.2, hr.2.2⟩

/-- Witness for C1 at a concrete table: the duplicated matching row keeps
multiplicity 2 and the non-matching row is dropped. -/
theorem C1_witness :
    (filtered_df [rowA, rowD, rowA] "CA" "S1" "P1").count rowA =
        ([rowA, rowD, rowA] : List SalesRecord).count rowA ∧
    (filtered_df [rowA, rowD, rowA] "CA" "S1" "P1").count rowD = 0 :=
  ⟨(C1_filter_exact_match [rowA, rowD, rowA] "CA" "S1" "P1").2.1 rowA rfl rfl rfl,
   (C1_filter_exact_match [rowA, rowD, rowA] "CA" "S1" "P1").2.2 rowD
     (by decide)⟩

/-! ## C9: concrete three-row scenario -/

/-- C9: on the filtered table [(2024-01-01, CA, S1, P1, 10),
(2024-01-02, CA, S1, P1, 20), (2024-01-03, CA, S1, P1, 30)] the average
sales is 20, the latest row is the 2024-01-03 one with sales 30, and the
series projection is the date-ascending [(1,10),(2,20),(3,30)]. -/
theorem C9_concrete_metrics :
    avg_sales (filtered_df [rowA, rowB, rowC] "CA" "S1" "P1") = 20 ∧
    (latest (filtered_df [rowA, rowB, rowC] "CA" "S1" "P1")).map (·.sales) =
        some 30 ∧
    (latest (filtered_df [rowA, rowB, rowC] "CA" "S1" "P1")).map (·.date) =
        some 3 ∧
    df_prophet (filtered_df [rowA, rowB, rowC] "CA" "S1" "P1") =
        [(1, 10), (2, 20), (3, 30)] := by
  have hf : filtered_df [rowA, rowB, rowC] "CA" "S1" "P1" =
      [rowA, rowB, rowC] := by decide
  rw [hf]
  refine ⟨?_, by decide, by decide, by decide⟩
  norm_num [avg_sales, rowA, rowB, rowC]

/-! ## C5: empty selection crashes the latest-row lookup -/

/-- C5 (failing input): a selection matching no rows filters to the empty
table, and on it the `latest` lookup — `sort_values("date").iloc[-1]` —
hits the out-of-bounds branch (`none`, i.e. pandas raises `IndexError`),
an unhandled crash rather than an `EmptyInputError`. -/
theorem C5_empty_selection_crash :
    filtered_df [rowA, rowB, rowC] "TX" "S1" "P1" = [] ∧
    latest (filtered_df [rowA, rowB, rowC] "TX" "S1" "P1") = none := by
  decide

/-! ## C10: hierarchy-respecting selections are non-empty -/

/-- C10: if the selected state, store and product each come from the
choice sets the sidebar offers (distinct values narrowed by the previous
choices), the filtered table is non-empty and the latest-row lookup
cannot hit its empty-frame crash branch. -/
theorem C10_hierarchical_selection_nonempty (raw : List SalesRecord)
    (state store product : String)
    (hs : state ∈ availableStates raw)
    (hst : store ∈ availableStores raw state)
    (hp : product ∈ availableProducts raw state store) :
    filtered_df raw state store product ≠ [] ∧
    (latest (filtered_df raw state store product)).isSome := by
  simp only [availableProducts, List.mem_insertionSort, List.mem_dedup,
    List.mem_map, List.mem_filter, Bool.and_eq_true, beq_iff_eq] at hp
  obtain ⟨r, ⟨hr_raw, hr_state, hr_store⟩, hr_prod⟩ := hp
  have hr_filtered : r ∈ filtered_df raw state store product := by
    simp only [filtered_df, List.mem_filter, Bool.and_eq_true, beq_iff_eq]
    exact ⟨hr_raw, ⟨hr_state, hr_store⟩, hr_prod⟩
  have hne : filtered_df raw state store product ≠ [] :=
    List.ne_nil_of_mem hr_filtered
  refine ⟨hne, ?_⟩
  rw [latest, List.getLast?_isSome]
  intro hsorted
  exact hne ((List.perm_insertionSort dateLe _).symm.trans
    (hsorted ▸ List.Perm.refl _)).eq_nil

/-- Witness for C10 at a concrete table: selecting (CA, S1, P1), each
drawn from the offered choice sets, yields a non-empty filter. -/
theorem C10_witness :
    filtered_df [rowA, rowD] "CA" "S1" "P1" ≠ [] ∧
    (latest (filtered_df [rowA, rowD] "CA" "S1" "P1")).isSome :=
  C10_hierarchical_selection_nonempty [rowA, rowD] "CA" "S1" "P1"
    (by
      simp only [availableStates, List.mem_insertionSort, List.mem_dedup,
        List.mem_map]
      exact ⟨rowA, by decide⟩)
    (by
      simp only [availableStores, List.mem_insertionSort, List.mem_dedup,
        List.mem_map, List.mem_filter]
      exact ⟨rowA, by decide⟩)
    (by
      simp only [availableProducts, List.mem_insertionSort, List.mem_dedup,
        List.mem_map, List.mem_filter]
      exact ⟨rowA, by decide⟩)

/-! ## C7: top-N products aggregation -/

/-- C7: `top5_df raw n` has at most `n` entries, is sorted descending by
total sales, carries each product at most once, and each entry's total
equals the sum of that product's sales over the whole raw table. -/
theorem C7_topN_products (raw : List SalesRecord) (n : ℕ) :
    (top5_df raw n).length ≤ n ∧
    List.Sorted descBySnd (top5_df raw n) ∧
    ((top5_df raw n).map Prod.fst).Nodup ∧
    (∀ pr ∈ top5_df raw n, pr.2 = productTotal raw pr.1) := by
  refine ⟨?_, ?_, ?_, ?_⟩
  · rw [top5_df, List.length_take]
    exact min_le_left _ _
  · exact List.Pairwise.sublist (List.take_sublist _ _)
      (List.sorted_insertionSort descBySnd _)
  · have hsub : ((top5_df raw n).map Prod.fst).Sublist
        ((List.insertionSort descBySnd (productTotals raw)).map Prod.fst) :=
      List.Sublist.map _ (List.take_sublist _ _)
    refine List.Nodup.sublist hsub ?_
    have hperm : ((List.insertionSort descBySnd (productTotals raw)).map
        Prod.fst).Perm ((productTotals raw).map Prod.fst) :=
      (List.perm_insertionSort descBySnd _).map _
    rw [hperm.nodup_iff]
    have : (productTotals raw).map Prod.fst =
        List.insertionSort (· ≤ ·) ((raw.map (·.product_id)).dedup) := by
      simp only [productTotals, List.map_map]
      exact List.map_id _
    rw [this]
    exact ((List.perm_insertionSort _ _).nodup_iff).mpr (List.nodup_dedup _)
  · intro pr hpr
    have h1 : pr ∈ List.insertionSort descBySnd (productTotals raw) :=
      List.mem_of_mem_take hpr
    rw [List.mem_insertionSort] at h1
    simp only [productTotals, List.mem_map] at h1
    obtain ⟨p, _, hp⟩ := h1
    rw [← hp]

/-- Witness for C7 at a one-row table: the single entry's total equals
the product's summed sales, and the length bound holds. -/
theorem C7_witness :
    (top5_df [rowA] 5).length ≤ 5 ∧
    ∀ pr ∈ top5_df [rowA] 5, pr.2 = productTotal [rowA] pr.1 :=
  ⟨(C7_topN_products [rowA] 5).1, (C7_topN_products [rowA] 5).2.2.2⟩

/-! ## C8: trailing-window store aggregation -/

/-- C8: for a non-empty raw table, the trailing-window restriction keeps
exactly the rows dated at or after the maximum date minus `windowDays`
(so every older row is excluded and every retained row meets the bound),
and the store aggregation pairs each store with the sum of sales of its
retained rows, each store appearing at most once. -/
theorem C8_store_trailing_window (raw : List SalesRecord) (windowDays : ℤ)
    (hraw : raw ≠ []) :
    (∀ r ∈ raw, r ∈ recentRows raw windowDays ↔
      listMaxD (raw.map (·.date)) - windowDays ≤ r.date) ∧
    (∀ r ∈ recentRows raw windowDays,
      listMaxD (raw.map (·.date)) - windowDays ≤ r.date) ∧
    ((store_agg raw windowDays).map Prod.fst).Nodup ∧
    (∀ pr ∈ store_agg raw windowDays,
      pr.2 = (((recentRows raw windowDays).filter
        (fun r => r.store_id == pr.1)).map (·.sales)).sum) := by
  refine ⟨?_, ?_, ?_, ?_⟩
  · intro r hr
    simp [recentRows, List.mem_filter, hr, decide_eq_true_eq]
  · intro r hr
    simp only [recentRows, List.mem_filter, decide_eq_true_eq] at hr
    exact hr.2
  · have : (store_agg raw windowDays).map Prod.fst =
        List.insertionSort (· ≤ ·)
          (((recentRows raw windowDays).map (·.store_id)).dedup) := by
      simp only [store_agg, List.map_map]
      exact List.map_id _
    rw [this]
    exact ((List.perm_insertionSort _ _).nodup_iff).mpr (List.nodup_dedup _)
  · intro pr hpr
    simp only [store_agg, List.mem_map] at hpr
    obtain ⟨s, _, hs⟩ := hpr
    rw [← hs]

/-- Witness for C8: with windowDays = 7 and max date 2024-01-10 (day 10),
the 2024-01-02 row is excluded, the 2024-01-03 row is retained, exactly
as the membership characterisation states. -/
theorem C8_witness :
    (rowJan02 ∈ recentRows [rowJan10, rowJan03, rowJan02] 7 ↔
      listMaxD (([rowJan10, rowJan03, rowJan02] : List SalesRecord).map
        (·.date)) - 7 ≤ rowJan02.date) ∧
    rowJan02 ∉ recentRows [rowJan10, rowJan03, rowJan02] 7 ∧
    rowJan03 ∈ recentRows [rowJan10, rowJan03, rowJan02] 7 :=
  ⟨(C8_store_trailing_window [rowJan10, rowJan03, rowJan02] 7
      (by simp)).1 rowJan02 (by decide),
   by decide, by decide⟩

/-! ## Helper lemmas on maxima, minima and the extended date range -/

theorem listMaxD_mem {l : List ℤ} (h : l ≠ []) : listMaxD l ∈ l := by
  cases hmax : l.maximum with
  | bot => exact absurd (List.maximum_eq_bot.mp hmax) h
  | coe m =>
      have hm : listMaxD l = m := by rw [listMaxD, hmax]; rfl
      rw [hm]
      exact List.maximum_mem hmax

theorem le_listMaxD {l : List ℤ} {a : ℤ} (h : a ∈ l) : a ≤ listMaxD l := by
  cases hmax : l.maximum with
  | bot => exact absurd (List.maximum_eq_bot.mp hmax) (List.ne_nil_of_mem h)
  | coe m =>
      have hm : listMaxD l = m := by rw [listMaxD, hmax]; rfl
      rw [hm]
      exact List.le_maximum_of_mem h hmax

theorem listMinD_mem {l : List ℤ} (h : l ≠ []) : listMinD l ∈ l := by
  cases hmin : l.minimum with
  | top => exact absurd (List.minimum_eq_top.mp hmin) h
  | coe m =>
      have hm : listMinD l = m := by rw [listMinD, hmin]; rfl
      rw [hm]
      exact List.minimum_mem hmin

theorem listMinD_le {l : List ℤ} {a : ℤ} (h : a ∈ l) : listMinD l ≤ a := by
  cases hmin : l.minimum with
  | top => exact absurd (List.minimum_eq_top.mp hmin) (List.ne_nil_of_mem h)
  | coe m =>
      have hm : listMinD l = m := by rw [listMinD, hmin]; rfl
      rw [hm]
      exact List.minimum_le_of_mem h hmin

theorem mem_history_dates {series : List (ℤ × ℚ)} {d : ℤ} :
    d ∈ history_dates series ↔ d ∈ seriesDates series := by
  simp [history_dates, List.mem_insertionSort, List.mem_dedup]

theorem history_dates_ne_nil {series : List (ℤ × ℚ)} (h : series ≠ []) :
    history_dates series ≠ [] := by
  obtain ⟨p, hp⟩ := List.exists_mem_of_ne_nil series h
  exact List.ne_nil_of_mem (mem_history_dates.mpr (List.mem_map_of_mem _ hp))

theorem seriesDates_ne_nil {series : List (ℤ × ℚ)} (h : series ≠ []) :
    seriesDates series ≠ [] := by
  obtain ⟨p, hp⟩ := List.exists_mem_of_ne_nil series h
  exact List.ne_nil_of_mem (List.mem_map_of_mem _ hp)

/-- The maximum of the model's stored history dates is the cutoff date. -/
theorem listMaxD_history (series : List (ℤ × ℚ)) (h : series ≠ []) :
    listMaxD (history_dates series) = cutoff series := by
  refine le_antisymm ?_ ?_
  · exact le_listMaxD (mem_history_dates.mp
      (listMaxD_mem (history_dates_ne_nil h)))
  · exact le_listMaxD (mem_history_dates.mpr
      (listMaxD_mem (seriesDates_ne_nil h)))

/-! ## C4: cutoff date and future-only display table -/

/-- C4: for a non-empty series the cutoff is the maximum observed date —
it belongs to the series' dates, bounds them all from above, and is never
one of the extended-range dates absent from the series — and the display
table holds exactly the merged rows whose date is strictly greater than
the cutoff, with multiplicity. -/
theorem C4_cutoff_max_observed (series : List (ℤ × ℚ)) (yhat : ℤ → ℚ)
    (h : series ≠ []) :
    cutoff series ∈ seriesDates series ∧
    (∀ d ∈ seriesDates series, d ≤ cutoff series) ∧
    (∀ d ∈ futureOf series, d ∉ seriesDates series → cutoff series ≠ d) ∧
    (∀ pr : ℤ × ℚ, (display_df yhat series).count pr =
      if cutoff series < pr.1 then (mergedOf yhat series).count pr else 0) := by
  refine ⟨listMaxD_mem (seriesDates_ne_nil h), fun d hd => le_listMaxD hd,
    ?_, ?_⟩
  · intro d _ hdnot heq
    exact hdnot (heq ▸ listMaxD_mem (seriesDates_ne_nil h))
  · intro pr
    by_cases hpr : cutoff series < pr.1
    · rw [if_pos hpr, display_df]
      exact List.count_filter (by simpa using hpr)
    · rw [if_neg hpr, List.count_eq_zero]
      intro hmem
      rw [display_df, List.mem_filter] at hmem
      exact hpr (by simpa using hmem.2)

/-- Witness for C4 on the two-day series [(1,10),(2,20)]: the cutoff is
an observed date bounding both dates. -/
theorem C4_witness :
    cutoff [((1:ℤ), (10:ℚ)), (2, 20)] ∈
        seriesDates [((1:ℤ), (10:ℚ)), (2, 20)] ∧
    (∀ d ∈ seriesDates [((1:ℤ), (10:ℚ)), (2, 20)],
      d ≤ cutoff [((1:ℤ), (10:ℚ)), (2, 20)]) :=
  ⟨(C4_cutoff_max_observed [((1:ℤ), (10:ℚ)), (2, 20)] (fun _ => 3)
      (by simp)).1,
   (C4_cutoff_max_observed [((1:ℤ), (10:ℚ)), (2, 20)] (fun _ => 3)
      (by simp)).2.1⟩

/-! ## C3: merged series carries predictions everywhere, actuals where observed -/

theorem mem_mergeOn_self {fut : List ℤ} (yhat : ℤ → ℚ) {d : ℤ}
    (hd : d ∈ fut) : (d, yhat d) ∈ mergeOn fut (forecastCol yhat fut) := by
  rw [mergeOn, List.mem_flatMap]
  refine ⟨d, hd, ?_⟩
  rw [List.mem_map]
  refine ⟨(d, yhat d), ?_, rfl⟩
  rw [List.mem_filter]
  exact ⟨List.mem_map_of_mem _ hd, by simp⟩

theorem actualAt_eq_none {series : List (ℤ × ℚ)} {d : ℤ} :
    actualAt series d = none ↔ d ∉ seriesDates series := by
  constructor
  · intro h hd
    rw [seriesDates, List.mem_map] at hd
    obtain ⟨p, hp, hpd⟩ := hd
    rw [actualAt, Option.map_eq_none', List.find?_eq_none] at h
    exact absurd (by simp [hpd]) (h p hp)
  · intro hd
    rw [actualAt, Option.map_eq_none', List.find?_eq_none]
    intro p hp hpd
    refine hd ?_
    rw [seriesDates, List.mem_map]
    exact ⟨p, hp, by simpa using hpd⟩

theorem actualAt_isSome {series : List (ℤ × ℚ)} {d : ℤ}
    (hd : d ∈ seriesDates series) : ∃ v, actualAt series d = some v := by
  rw [seriesDates, List.mem_map] at hd
  obtain ⟨p, hp, hpd⟩ := hd
  have hfind : (series.find? (fun q => q.1 == d)).isSome :=
    List.find?_isSome.mpr ⟨p, hp, by simp [hpd]⟩
  obtain ⟨q, hq⟩ := Option.isSome_iff_exists.mp hfind
  exact ⟨q.2, by rw [actualAt, hq]; rfl⟩

/-- C3: the merged forecast frame behaves as an outer join of actuals
with predictions over the extended range: every extended-range date
missing from the input series appears with its predicted value while the
series holds no actual for it, and every date present in both the series
and the prediction range appears with its predicted value while the
series holds an actual for it. -/
theorem C3_merge_outer_semantics (series : List (ℤ × ℚ)) (yhat : ℤ → ℚ)
    (d : ℤ) (hd : d ∈ futureOf series) :
    (d ∉ seriesDates series →
      actualAt series d = none ∧ (d, yhat d) ∈ mergedOf yhat series) ∧
    (d ∈ seriesDates series →
      (∃ v, actualAt series d = some v) ∧
      (d, yhat d) ∈ mergedOf yhat series) := by
  have hmem : (d, yhat d) ∈ mergedOf yhat series := mem_mergeOn_self yhat hd
  exact ⟨fun hnot => ⟨actualAt_eq_none.mpr hnot, hmem⟩,
    fun hin => ⟨actualAt_isSome hin, hmem⟩⟩

/-- Witness for C3: on the series [(0,10),(1,20)], the future-only date
31 carries an absent actual together with its predicted value. -/
theorem C3_witness :
    actualAt [((0:ℤ), (10:ℚ)), (1, 20)] 31 = none ∧
    ((31:ℤ), (5:ℚ)) ∈ mergedOf (fun _ => 5) [((0:ℤ), (10:ℚ)), (1, 20)] :=
  (C3_merge_outer_semantics [((0:ℤ), (10:ℚ)), (1, 20)] (fun _ => 5) 31
    (by decide)).1 (by decide)

/-! ## C2: the extended date range and its gaps -/

theorem history_dates_nodup (series : List (ℤ × ℚ)) :
    (history_dates series).Nodup := by
  rw [history_dates]
  exact ((List.perm_insertionSort _ _).nodup_iff).mpr (List.nodup_dedup _)

theorem history_dates_sorted (series : List (ℤ × ℚ)) :
    List.Sorted (· ≤ ·) (history_dates series) :=
  List.sorted_insertionSort _ _

theorem sorted_lt_of_le_nodup {l : List ℤ} (hs : List.Sorted (· ≤ ·) l)
    (hn : l.Nodup) : List.Sorted (· < ·) l :=
  (List.Pairwise.and hs hn).imp (fun h => lt_of_le_of_ne h.1 h.2)

theorem filter_beq_of_nodup {l : List ℤ} {d : ℤ} (hn : l.Nodup)
    (hd : d ∈ l) : l.filter (fun x => x == d) = [d] := by
  induction l with
  | nil => cases hd
  | cons a t ih =>
      rw [List.nodup_cons] at hn
      rcases List.mem_cons.mp hd with heq | hdt
      · rw [← heq] at hn ⊢
        rw [List.filter_cons_of_pos (by simp)]
        have ht : t.filter (fun x => x == d) = [] := by
          rw [List.filter_eq_nil_iff]
          intro x hx
          simp only [beq_iff_eq]
          intro hxd
          exact hn.1 (hxd ▸ hx)
        rw [ht]
      · rw [List.filter_cons_of_neg ?_]
        · exact ih hn.2 hdt
        · simp only [beq_iff_eq]
          rintro rfl
          exact hn.1 hdt

theorem forecastCol_filter_eq {fut : List ℤ} {d : ℤ} (yhat : ℤ → ℚ)
    (hn : fut.Nodup) (hd : d ∈ fut) :
    (forecastCol yhat fut).filter (fun p => p.1 == d) = [(d, yhat d)] := by
  rw [forecastCol, List.filter_map]
  have hcomp : ((fun p : ℤ × ℚ => p.1 == d) ∘ fun x => (x, yhat x)) =
      fun x => x == d := rfl
  rw [hcomp, filter_beq_of_nodup hn hd]
  rfl

theorem dates_mergeOn_eq (yhat : ℤ → ℚ) :
    ∀ (left : List ℤ) (fc : List (ℤ × ℚ)),
    (∀ d ∈ left, fc.filter (fun p => p.1 == d) = [(d, yhat d)]) →
    seriesDates (mergeOn left fc) = left := by
  intro left
  induction left with
  | nil => intro fc _; rfl
  | cons a t ih =>
      intro fc h
      have hstep : mergeOn (a :: t) fc =
          ((fc.filter (fun p => p.1 == a)).map (fun p => (a, p.2))) ++
            mergeOn t fc := by
        rw [mergeOn, List.flatMap_cons]
        rfl
      rw [hstep, seriesDates, List.map_append,
        h a (List.mem_cons_self a t)]
      have ht := ih fc (fun d hd => h d (List.mem_cons_of_mem a hd))
      rw [seriesDates] at ht
      simp [ht]

theorem futureOf_nodup (series : List (ℤ × ℚ)) : (futureOf series).Nodup := by
  rw [futureOf, make_future_dataframe]
  refine List.Nodup.append (history_dates_nodup series) ?_ ?_
  · refine (List.nodup_range 30).map ?_
    intro i j hij
    have h' : listMaxD (history_dates series) + 1 + (i : ℤ) =
        listMaxD (history_dates series) + 1 + (j : ℤ) := hij
    omega
  · intro x hx hx'
    have h1 : x ≤ listMaxD (history_dates series) := le_listMaxD hx
    obtain ⟨i, _, hxi⟩ := List.mem_map.mp hx'
    omega

theorem futureOf_sorted (series : List (ℤ × ℚ)) :
    List.Sorted (· < ·) (futureOf series) := by
  rw [futureOf, make_future_dataframe]
  refine List.pairwise_append.mpr ⟨sorted_lt_of_le_nodup
    (history_dates_sorted series) (history_dates_nodup series), ?_, ?_⟩
  · refine List.Pairwise.map _ ?_ (List.pairwise_lt_range 30)
    intro i j hij
    omega
  · intro a ha b hb
    have h1 : a ≤ listMaxD (history_dates series) := le_listMaxD ha
    obtain ⟨i, _, hbi⟩ := List.mem_map.mp hb
    omega

theorem mem_futureOf {series : List (ℤ × ℚ)} {d : ℤ} :
    d ∈ futureOf series ↔ d ∈ seriesDates series ∨
      ∃ i : ℕ, i < 30 ∧ d = listMaxD (history_dates series) + 1 + (i : ℤ) := by
  rw [futureOf, make_future_dataframe, List.mem_append]
  constructor
  · rintro (hd | hd)
    · exact Or.inl (mem_history_dates.mp hd)
    · obtain ⟨i, hi, hdi⟩ := List.mem_map.mp hd
      exact Or.inr ⟨i, List.mem_range.mp hi, hdi.symm⟩
  · rintro (hd | ⟨i, hi, rfl⟩)
    · exact Or.inl (mem_history_dates.mpr hd)
    · exact Or.inr (List.mem_map.mpr ⟨i, List.mem_range.mpr hi, rfl⟩)

/-- Counterexample to C2 as stated: for the gapped two-day series
[(day 0, 10), (day 2, 20)] — which has at least 2 distinct dates — the
date 1 lies between the minimum date and the maximum date + 30 yet is
absent from the merged forecast dates, so they are not a contiguous
daily sequence. -/
theorem C2_counterexample :
    2 ≤ (history_dates [((0:ℤ), (10:ℚ)), (2, 20)]).length ∧
    listMinD (seriesDates [((0:ℤ), (10:ℚ)), (2, 20)]) ≤ 1 ∧
    (1:ℤ) ≤ cutoff [((0:ℤ), (10:ℚ)), (2, 20)] + 30 ∧
    (1:ℤ) ∉ mergedDates (fun _ => 0) [((0:ℤ), (10:ℚ)), (2, 20)] := by
  decide

/-- C2 as amended: the merged forecast dates are the series' distinct
dates followed by the 30 days after the maximum date, so gaps in the
input persist; when the input's distinct dates are themselves contiguous
(no gaps between its minimum and maximum), the merged dates are exactly
the contiguous daily sequence from the minimum date through the maximum
date + 30, without duplicates and in increasing order. -/
theorem C2_amended_contiguous (series : List (ℤ × ℚ)) (yhat : ℤ → ℚ)
    (hne : series ≠ [])
    (hdistinct : 2 ≤ (history_dates series).length)
    (hcont : ∀ d : ℤ, listMinD (seriesDates series) ≤ d →
      d ≤ cutoff series → d ∈ seriesDates series) :
    (∀ d : ℤ, d ∈ mergedDates yhat series ↔
      listMinD (seriesDates series) ≤ d ∧ d ≤ cutoff series + 30) ∧
    (mergedDates yhat series).Nodup ∧
    List.Sorted (· < ·) (mergedDates yhat series) := by
  have hdates : mergedDates yhat series = futureOf series := by
    rw [mergedDates, mergedOf]
    exact dates_mergeOn_eq yhat (futureOf series) _
      (fun d hd => forecastCol_filter_eq yhat (futureOf_nodup series) hd)
  have hmax : listMaxD (history_dates series) = cutoff series :=
    listMaxD_history series hne
  refine ⟨?_, hdates ▸ futureOf_nodup series, hdates ▸ futureOf_sorted series⟩
  intro d
  rw [hdates, mem_futureOf, hmax]
  have hminmax : listMinD (seriesDates series) ≤ cutoff series :=
    le_listMaxD (listMinD_mem (seriesDates_ne_nil hne))
  constructor
  · rintro (hd | ⟨i, hi, rfl⟩)
    · have h1 : listMinD (seriesDates series) ≤ d := listMinD_le hd
      have h2 : d ≤ cutoff series := le_listMaxD hd
      omega
    · omega
  · rintro ⟨h1, h2⟩
    by_cases hd : d ≤ cutoff series
    · exact Or.inl (hcont d h1 hd)
    · exact Or.inr ⟨(d - cutoff series - 1).toNat, by omega, by omega⟩

/-- Witness for C2 as amended: the gap-free series [(0,10),(1,20)]
satisfies the contiguity hypothesis, and date 5 is in the merged dates
exactly because it lies between the minimum and the maximum + 30. -/
theorem C2_witness :
    (5:ℤ) ∈ mergedDates (fun _ => 2) [((0:ℤ), (10:ℚ)), (1, 20)] ↔
      listMinD (seriesDates [((0:ℤ), (10:ℚ)), (1, 20)]) ≤ 5 ∧
      (5:ℤ) ≤ cutoff [((0:ℤ), (10:ℚ)), (1, 20)] + 30 :=
  (C2_amended_contiguous [((0:ℤ), (10:ℚ)), (1, 20)] (fun _ => 2)
    (by simp) (by decide)
    (by
      intro d h1 h2
      have hmin : listMinD (seriesDates [((0:ℤ), (10:ℚ)), (1, 20)]) = 0 := by
        decide
      have hcut : cutoff [((0:ℤ), (10:ℚ)), (1, 20)] = 1 := by decide
      rw [hmin] at h1
      rw [hcut] at h2
      have : d = 0 ∨ d = 1 := by omega
      rcases this with rfl | rfl
      · decide
      · decide)).1 5

/-! ## C6: a forecasting failure and what still renders -/

/-- Counterexample to C6 as stated: on a valid selection, when the
forecasting capability raises (`fitModel = none`), the two aggregation
views do not render — their outputs are `none` — even though they would
render with a successful fit; only the metrics, written before the
forecast code runs, still render. -/
theorem C6_counterexample :
    (runDashboard [rowA, rowB] "CA" "S1" "P1" none).top5Out = none ∧
    (runDashboard [rowA, rowB] "CA" "S1" "P1" none).storeOut = none ∧
    (runDashboard [rowA, rowB] "CA" "S1" "P1" none).metricsOut ≠ none ∧
    (runDashboard [rowA, rowB] "CA" "S1" "P1" (some fun _ => 0)).top5Out ≠
      none := by
  decide

/-- C6 as amended: the script is straight-line with no handler around the
forecasting call, so when the external capability raises, the metrics —
already rendered above the forecast code — still show, but the forecast
chart, the top-N products view and the trailing-window store view, which
all come after the fit, do not render. -/
theorem C6_amended_fit_failure (raw : List SalesRecord)
    (state store product : String) (lrow : SalesRecord)
    (hl : latest (filtered_df raw state store product) = some lrow) :
    (runDashboard raw state store product none).metricsOut =
      some (lrow.sales, avg_margin (filtered_df raw state store product),
        avg_outstock (filtered_df raw state store product),
        avg_sales (filtered_df raw state store product)) ∧
    (runDashboard raw state store product none).forecastOut = none ∧
    (runDashboard raw state store product none).top5Out = none ∧
    (runDashboard raw state store product none).storeOut = none := by
  simp [runDashboard, hl]

/-- Witness for C6 as amended at a concrete table and selection. -/
theorem C6_witness :
    (runDashboard [rowA, rowB] "CA" "S1" "P1" none).forecastOut = none ∧
    (runDashboard [rowA, rowB] "CA" "S1" "P1" none).storeOut = none :=
  ⟨(C6_amended_fit_failure [rowA, rowB] "CA" "S1" "P1" rowB
      (by decide)).2.1,
   (C6_amended_fit_failure [rowA, rowB] "CA" "S1" "P1" rowB
      (by decide)).2.2.2⟩

end SalesForecast
